import Mathlib

/-!
Verification of the rate-limiting core of `src/rate-limiter.js` (the
`RateLimiter` class).  JS objects keyed by route-path strings are embedded
as association lists `List (String × Nat)`; lookup returns the first
binding, matching unique-key JS objects.  The express middleware outcome is
embedded as a `Decision`: calling `next()` is `allow`, and sending
`res.status(429).json({statusCode, message})` is `reject` carrying the
response body.  Cluster-mode redis calls are fallible: the store state
carries a schedule of per-command failure flags, and a failing command
makes the whole (async, uncaught) admission computation return an
`Except.error`, exactly as an awaited rejected promise propagates out of
`limitRateCluster`.
-/

/-- Lookup in a JS-object-as-association-list: `obj[key]`, `none` playing
the role of `undefined`. -/
def lookupKey : List (String × Nat) → String → Option Nat
  | [], _ => none
  | (k, v) :: rest, key => if k = key then some v else lookupKey rest key

/-- Lodash `_.has(obj, key)`. -/
def hasKey (m : List (String × Nat)) (k : String) : Bool :=
  (lookupKey m k).isSome

/-- JS `obj[key] += 1` on the (unique) binding of `key`. -/
def incrKey : List (String × Nat) → String → List (String × Nat)
  | [], _ => []
  | (k, v) :: rest, key =>
      if k = key then (k, v + 1) :: rest else (k, v) :: incrKey rest key

/-- JS loose `<` between `obj[key]` (a number or `undefined`) and a limit
(a number or `undefined`): a comparison against `undefined` is `false`
(NaN), two numbers compare numerically. -/
def ltUndef (count : Option Nat) (limit : Option Nat) : Bool :=
  match count, limit with
  | some c, some l => decide (c < l)
  | _, _ => false

/-- JS loose `<` between a `redis.get` result (an integer string, or `null`
for a missing key, which coerces to 0) and `this.routeLimits[routePath]`
(a number, or `undefined` for an unconfigured route, in which case the
comparison is `false`). -/
def ltNull (count : Option Nat) (limit : Option Nat) : Bool :=
  match limit with
  | none => false
  | some l => decide (count.getD 0 < l)

/-- Body of the JSON rejection response
`res.status(429).json({'statusCode': ..., 'message': ...})`. -/
structure Rejection where
  httpStatus : Nat
  statusCode : Nat
  message : String
deriving Repr, DecidableEq

/-- Outcome of one middleware invocation: `next()` was called, or a
rejection response was sent. -/
inductive Decision where
  | allow
  | reject (r : Rejection)
deriving Repr, DecidableEq

/-- The unknown-route rejection of both modes:
`res.status(429).json({'statusCode': 400, 'message': 'Route path P not configured.'})`. -/
def unknownRouteResponse (routePath : String) : Rejection :=
  { httpStatus := 429, statusCode := 400,
    message := "Route path " ++ routePath ++ " not configured." }

/-- The quota-exceeded rejection of both modes:
`res.status(429).json({'statusCode': 429, 'message': 'Route path P has reached its request limit.'})`. -/
def quotaExceededResponse (routePath : String) : Rejection :=
  { httpStatus := 429, statusCode := 429,
    message := "Route path " ++ routePath ++ " has reached its request limit." }

/-- Per-instance state used by non-cluster mode: `this.routeCounts` and
`this.routeLimits`. -/
structure LocalState where
  routeCounts : List (String × Nat)
  routeLimits : List (String × Nat)
deriving Repr, DecidableEq

/-- Non-cluster construction: `this.routeCounts =
_.mapValues(config.routeLimits, () => 0)` and `this.routeLimits =
config.routeLimits`. -/
def mkLocal (routeLimits : List (String × Nat)) : LocalState :=
  { routeCounts := routeLimits.map (fun kv => (kv.1, 0)),
    routeLimits := routeLimits }

/-- The method `limitRateNonCluster`: reject 400-style if
`!_.has(this.routeCounts, routePath)`, allow and increment if
`this.routeCounts[routePath] < this.routeLimits[routePath]`, else reject
429-style. -/
def limitRateNonCluster (s : LocalState) (routePath : String) :
    Decision × LocalState :=
  if !hasKey s.routeCounts routePath then
    (Decision.reject (unknownRouteResponse routePath), s)
  else if ltUndef (lookupKey s.routeCounts routePath)
      (lookupKey s.routeLimits routePath) then
    (Decision.allow, { s with routeCounts := incrKey s.routeCounts routePath })
  else
    (Decision.reject (quotaExceededResponse routePath), s)

/-- Decisions of a sequence of `limitRateNonCluster` invocations, one per
request path in the list. -/
def runDecisions : LocalState → List String → List Decision
  | _, [] => []
  | s, p :: ps =>
      (limitRateNonCluster s p).1 :: runDecisions (limitRateNonCluster s p).2 ps

/-- State after a sequence of `limitRateNonCluster` invocations. -/
def runState : LocalState → List String → LocalState
  | s, [] => s
  | s, p :: ps => runState (limitRateNonCluster s p).2 ps

/-- Number of `allow` decisions in a list. -/
def countAllows : List Decision → Nat
  | [] => 0
  | Decision.allow :: rest => countAllows rest + 1
  | Decision.reject _ :: rest => countAllows rest

/-- The namespaced key used for every redis access: `routeCounts:<path>`. -/
def redisKey (path : String) : String :=
  "routeCounts:" ++ path

/-- State of the shared redis store as seen by one connection: the
key/value data, plus a schedule of transport-failure flags, one consumed
per issued command (`true` = this command's promise rejects, e.g. the
store is unreachable or times out; an exhausted schedule means commands
succeed). -/
structure RedisState where
  data : List (String × Nat)
  failures : List Bool
deriving Repr, DecidableEq

/-- Consume the failure flag for the next issued command. -/
def popFail : RedisState → Bool × RedisState
  | ⟨d, []⟩ => (false, ⟨d, []⟩)
  | ⟨d, f :: fs⟩ => (f, ⟨d, fs⟩)

/-- Redis `EXISTS key` (ioredis `redis.exists`): resolves to 1 or 0, or
rejects on transport failure. -/
def redisExists (s : RedisState) (k : String) : Except Unit (Nat × RedisState) :=
  match popFail s with
  | (true, _) => Except.error ()
  | (false, s1) => Except.ok (if hasKey s1.data k then 1 else 0, s1)

/-- Redis `GET key` (ioredis `redis.get`): resolves to the stored integer
string, or `null` (`none`) for a missing key, or rejects on transport
failure. -/
def redisGet (s : RedisState) (k : String) :
    Except Unit (Option Nat × RedisState) :=
  match popFail s with
  | (true, _) => Except.error ()
  | (false, s1) => Except.ok (lookupKey s1.data k, s1)

/-- Redis `INCR key` (ioredis `redis.incr`): atomically increments the
integer at `key` (a missing key counts as 0, so it is created at 1), or
rejects on transport failure. -/
def redisIncr (s : RedisState) (k : String) : Except Unit RedisState :=
  match popFail s with
  | (true, _) => Except.error ()
  | (false, s1) =>
      Except.ok ⟨if hasKey s1.data k then incrKey s1.data k
                 else s1.data ++ [(k, 1)], s1.failures⟩

/-- Redis `SETNX key v` (ioredis `redis.setnx`): sets `key` to `v` only if
it is absent.  Used only by the cluster-mode constructor's seeding loop;
this model of seeding assumes a reachable store (the claims about seeding
quantify only over the stored data). -/
def setnxData (m : List (String × Nat)) (k : String) (v : Nat) :
    List (String × Nat) :=
  if hasKey m k then m else m ++ [(k, v)]

/-- Cluster-mode construction side effect: for each key of
`config.routeLimits`, `this.redis.setnx('routeCounts:' + key, 0)`. -/
def seedStore (routeLimits : List (String × Nat))
    (data : List (String × Nat)) : List (String × Nat) :=
  routeLimits.foldl (fun d kv => setnxData d (redisKey kv.1) 0) data

/-- The method `_pathIsValidForLimit`: awaits
`redis.exists('routeCounts:' + path)` and compares the result to 1. -/
def pathIsValidForLimit (s : RedisState) (path : String) :
    Except Unit (Bool × RedisState) :=
  match redisExists s (redisKey path) with
  | Except.error e => Except.error e
  | Except.ok (v, s1) => Except.ok (v == 1, s1)

/-- The method `_getPathCountCluster`: awaits
`redis.get('routeCounts:' + path)`. -/
def getPathCountCluster (s : RedisState) (path : String) :
    Except Unit (Option Nat × RedisState) :=
  redisGet s (redisKey path)

/-- The method `_incrementPathCountCluster`: awaits
`redis.incr('routeCounts:' + path)`. -/
def incrementPathCountCluster (s : RedisState) (path : String) :
    Except Unit RedisState :=
  redisIncr s (redisKey path)

/-- The async method `limitRateCluster`.  Each awaited redis call that
rejects propagates out of the (uncaught) async function as an
`Except.error`; otherwise: reject 400-style if the namespaced key does not
exist, allow after an atomic increment if the fetched count is below
`this.routeLimits[routePath]`, else reject 429-style. -/
def limitRateCluster (routeLimits : List (String × Nat)) (s : RedisState)
    (routePath : String) : Except Unit (Decision × RedisState) :=
  match pathIsValidForLimit s routePath with
  | Except.error e => Except.error e
  | Except.ok (isValidPath, s1) =>
    if !isValidPath then
      Except.ok (Decision.reject (unknownRouteResponse routePath), s1)
    else
      match getPathCountCluster s1 routePath with
      | Except.error e => Except.error e
      | Except.ok (count, s2) =>
        if ltNull count (lookupKey routeLimits routePath) then
          match incrementPathCountCluster s2 routePath with
          | Except.error e => Except.error e
          | Except.ok s3 => Except.ok (Decision.allow, s3)
        else
          Except.ok (Decision.reject (quotaExceededResponse routePath), s2)

/-- Current local counter of a route (`this.routeCounts[routePath]`, a
missing route reading as 0 for the purpose of stating count evolution). -/
def getCount (s : LocalState) (p : String) : Nat :=
  (lookupKey s.routeCounts p).getD 0

/-- Decision carried by a cluster-mode outcome, `none` when the async call
propagated a store failure instead of deciding. -/
def decisionOf : Except Unit (Decision × RedisState) → Option Decision
  | Except.ok (d, _) => some d
  | Except.error _ => none

/-! ### Helper lemmas about the map operations -/

theorem lookupKey_incrKey_self (m : List (String × Nat)) (p : String) :
    lookupKey (incrKey m p) p = (lookupKey m p).map (fun c => c + 1) := by
  induction m with
  | nil => simp [incrKey, lookupKey]
  | cons kv rest ih =>
    obtain ⟨k, v⟩ := kv
    by_cases h : k = p <;> simp [incrKey, lookupKey, h, ih]

theorem hasKey_incrKey (m : List (String × Nat)) (p k : String) :
    hasKey (incrKey m p) k = hasKey m k := by
  induction m with
  | nil => simp [incrKey]
  | cons kv rest ih =>
    obtain ⟨k', v⟩ := kv
    by_cases h : k' = p
    · subst h
      by_cases h2 : k' = k <;> simp [incrKey, hasKey, lookupKey, h2]
    · by_cases h2 : k' = k <;>
        simp_all [incrKey, hasKey, lookupKey]

theorem lookupKey_mkLocal (q : List (String × Nat)) (p : String) :
    lookupKey (mkLocal q).routeCounts p = (lookupKey q p).map (fun _ => 0) := by
  induction q with
  | nil => simp [mkLocal, lookupKey]
  | cons kv rest ih =>
    obtain ⟨k, v⟩ := kv
    by_cases h : k = p <;> simp_all [mkLocal, lookupKey, h]

theorem hasKey_mkLocal (q : List (String × Nat)) (p : String) :
    hasKey (mkLocal q).routeCounts p = hasKey q p := by
  simp [hasKey, lookupKey_mkLocal]

/-! ### Branch lemmas for limitRateNonCluster -/

theorem nonCluster_notConfigured (s : LocalState) (p : String)
    (h : hasKey s.routeCounts p = false) :
    limitRateNonCluster s p = (Decision.reject (unknownRouteResponse p), s) := by
  simp [limitRateNonCluster, h]

theorem nonCluster_allow (s : LocalState) (p : String) (c N : Nat)
    (hc : lookupKey s.routeCounts p = some c)
    (hl : lookupKey s.routeLimits p = some N) (h : c < N) :
    limitRateNonCluster s p =
      (Decision.allow, { s with routeCounts := incrKey s.routeCounts p }) := by
  have hk : hasKey s.routeCounts p = true := by simp [hasKey, hc]
  simp [limitRateNonCluster, hk, ltUndef, hc, hl, h]

theorem nonCluster_quotaExceeded (s : LocalState) (p : String) (c : Nat)
    (hc : lookupKey s.routeCounts p = some c)
    (h : ltUndef (some c) (lookupKey s.routeLimits p) = false) :
    limitRateNonCluster s p =
      (Decision.reject (quotaExceededResponse p), s) := by
  have hk : hasKey s.routeCounts p = true := by simp [hasKey, hc]
  simp [limitRateNonCluster, hk, hc, h]

/-! ### Sequential runs on one route -/

theorem runDecisions_replicate (m : Nat) (s : LocalState) (p : String) (c N : Nat)
    (hc : lookupKey s.routeCounts p = some c)
    (hl : lookupKey s.routeLimits p = some N) :
    runDecisions s (List.replicate m p) =
      (List.range m).map (fun i =>
        if c + i < N then Decision.allow
        else Decision.reject (quotaExceededResponse p)) := by
  induction m generalizing s c with
  | zero => simp [runDecisions]
  | succ m ih =>
    rw [List.replicate_succ, List.range_succ_eq_map]
    by_cases h : c < N
    · have step := nonCluster_allow s p c N hc hl h
      simp only [runDecisions, step]
      have hc' : lookupKey
          ({ s with routeCounts := incrKey s.routeCounts p }).routeCounts p
            = some (c + 1) := by
        simp [lookupKey_incrKey_self, hc]
      rw [ih _ (c + 1) hc' hl]
      simp only [List.map_cons, List.map_map]
      congr 1
      · rw [if_pos (by omega)]
      · apply List.map_congr_left
        intro i _
        simp only [Function.comp]
        by_cases h2 : c + 1 + i < N
        · rw [if_pos h2, if_pos (by omega)]
        · rw [if_neg h2, if_neg (by omega)]
    · have hfalse : ltUndef (some c) (lookupKey s.routeLimits p) = false := by
        simp [ltUndef, hl]; omega
      have step := nonCluster_quotaExceeded s p c hc hfalse
      simp only [runDecisions, step]
      rw [ih s c hc hl]
      simp only [List.map_cons, List.map_map]
      congr 1
      · rw [if_neg (by omega)]
      · apply List.map_congr_left
        intro i _
        simp only [Function.comp]
        rw [if_neg (by omega), if_neg (by omega)]

/-! ### Counting allowed decisions -/

theorem countAllows_append (l1 l2 : List Decision) :
    countAllows (l1 ++ l2) = countAllows l1 + countAllows l2 := by
  induction l1 with
  | nil => simp [countAllows]
  | cons d rest ih =>
    cases d with
    | allow =>
      simp [countAllows, ih]
      omega
    | reject r => simp [countAllows, ih]

theorem countAllows_rangeMap (p : String) (m c N : Nat) :
    countAllows ((List.range m).map (fun i =>
      if c + i < N then Decision.allow
      else Decision.reject (quotaExceededResponse p))) = min m (N - c) := by
  induction m with
  | zero => simp [countAllows]
  | succ m ih =>
    rw [List.range_succ, List.map_append, countAllows_append, ih]
    by_cases h : c + m < N
    · simp only [List.map_cons, List.map_nil, if_pos h, countAllows]
      omega
    · simp only [List.map_cons, List.map_nil, if_neg h, countAllows]
      omega

theorem eq_replicate_of_forall (l : List String) (p : String)
    (h : ∀ r ∈ l, r = p) : l = List.replicate l.length p := by
  induction l with
  | nil => simp
  | cons a rest ih =>
    have ha : a = p := h a (by simp)
    simp only [List.length_cons, List.replicate_succ]
    exact List.cons_eq_cons.mpr ⟨ha, ih (fun r hr => h r (by simp [hr]))⟩

/-! ### Key-set preservation across runs -/

theorem hasKey_step (s : LocalState) (p k : String) :
    hasKey (limitRateNonCluster s p).2.routeCounts k
      = hasKey s.routeCounts k := by
  unfold limitRateNonCluster
  split
  · rfl
  · split
    · simp [hasKey_incrKey]
    · rfl

theorem hasKey_runState (s : LocalState) (ps : List String) (k : String) :
    hasKey (runState s ps).routeCounts k = hasKey s.routeCounts k := by
  induction ps generalizing s with
  | nil => rfl
  | cons p rest ih =>
    simp only [runState]
    rw [ih, hasKey_step]

/-! ### Claim theorems -/

/-- C1: in local mode, starting from the fresh all-zero state with no
external reset, purely sequential `limitRateNonCluster` calls on a route
configured with quota N return ALLOW (`next()`) for each of the first N
calls and the quota-exceeded rejection for the (N+1)-th and every later
call; the comparison is strict `<`, so quota 0 admits nothing (the i-th
decision is ALLOW exactly when i < N). -/
theorem c1_quota_boundary (q : List (String × Nat)) (p : String) (N m : Nat)
    (hq : lookupKey q p = some N) :
    runDecisions (mkLocal q) (List.replicate m p) =
      (List.range m).map (fun i =>
        if i < N then Decision.allow
        else Decision.reject (quotaExceededResponse p)) := by
  have hc : lookupKey (mkLocal q).routeCounts p = some 0 := by
    simp [lookupKey_mkLocal, hq]
  have hl : lookupKey (mkLocal q).routeLimits p = some N := hq
  rw [runDecisions_replicate m _ p 0 N hc hl]
  simp only [Nat.zero_add]

theorem c1_quota_boundary_witness :
    runDecisions (mkLocal [("/a", 2)]) (List.replicate 3 "/a") =
      [Decision.allow, Decision.allow,
       Decision.reject (quotaExceededResponse "/a")] := by
  rw [c1_quota_boundary [("/a", 2)] "/a" 2 3 (by decide)]
  decide

/-- C7: immediately after local-mode construction, `this.routeCounts` has
exactly the route paths of `config.routeLimits` as its keys (same key list,
hence no extra key), every configured route is present with count 0, and
lookups of the two maps correspond keywise. -/
theorem c7_startup_correspondence (q : List (String × Nat)) :
    (mkLocal q).routeCounts.map Prod.fst = q.map Prod.fst ∧
    (∀ kv ∈ (mkLocal q).routeCounts, kv.2 = 0) ∧
    (∀ p, hasKey (mkLocal q).routeCounts p = hasKey q p) ∧
    (∀ p, lookupKey (mkLocal q).routeCounts p
      = (lookupKey q p).map (fun _ => 0)) := by
  refine ⟨?_, ?_, hasKey_mkLocal q, lookupKey_mkLocal q⟩
  · simp [mkLocal]
  · intro kv hkv
    simp only [mkLocal, List.mem_map] at hkv
    obtain ⟨a, _, rfl⟩ := hkv
    rfl

theorem c7_startup_correspondence_witness :
    ((mkLocal [("/a", 2), ("/b", 5)]).routeCounts.map Prod.fst
        = [("/a", 2), ("/b", 5)].map Prod.fst) ∧
      (("/a", 0) : String × Nat).2 = 0 :=
  ⟨(c7_startup_correspondence [("/a", 2), ("/b", 5)]).1,
   (c7_startup_correspondence [("/a", 2), ("/b", 5)]).2.1 ("/a", 0)
     (by decide)⟩

/-- C8: in local mode the whole check-then-increment runs synchronously
(the source contains no await), so each invocation is a single atomic
event-loop turn and any interleaving of N concurrent identical checks is a
sequential run of those N requests; for a route with quota N, every such
run of exactly N requests admits all N, and no run of requests on that
route ever admits more than N (no over-admission). -/
theorem c8_local_no_overadmission (q : List (String × Nat)) (p : String)
    (N : Nat) (hq : lookupKey q p = some N) :
    (∀ reqs : List String, (∀ r ∈ reqs, r = p) → reqs.length = N →
      countAllows (runDecisions (mkLocal q) reqs) = N) ∧
    (∀ reqs : List String, (∀ r ∈ reqs, r = p) →
      countAllows (runDecisions (mkLocal q) reqs) ≤ N) := by
  have key : ∀ m : Nat,
      countAllows (runDecisions (mkLocal q) (List.replicate m p))
        = min m N := by
    intro m
    have hc : lookupKey (mkLocal q).routeCounts p = some 0 := by
      simp [lookupKey_mkLocal, hq]
    rw [runDecisions_replicate m _ p 0 N hc hq, countAllows_rangeMap]
    omega
  constructor
  · intro reqs hall hlen
    rw [eq_replicate_of_forall reqs p hall, hlen, key]
    omega
  · intro reqs hall
    rw [eq_replicate_of_forall reqs p hall, key]
    omega

theorem c8_local_no_overadmission_witness :
    countAllows (runDecisions (mkLocal [("/a", 2)]) ["/a", "/a"]) = 2 :=
  (c8_local_no_overadmission [("/a", 2)] "/a" 2 (by decide)).1
    ["/a", "/a"] (by decide) (by decide)

/-- C10: `limitRateNonCluster` reads only `req.path`, `this.routeCounts`
and `this.routeLimits` (no clock, randomness or I/O), so its embedding is
a pure function of the state and the path: two runs from identical counter
state, quota table and route path produce the same decision and the same
resulting state. -/
theorem c10_nonCluster_deterministic (s1 s2 : LocalState) (p1 p2 : String)
    (hs : s1 = s2) (hp : p1 = p2) :
    limitRateNonCluster s1 p1 = limitRateNonCluster s2 p2 := by
  rw [hs, hp]

theorem c10_nonCluster_deterministic_witness :
    limitRateNonCluster (mkLocal [("/a", 1)]) "/a"
      = limitRateNonCluster (mkLocal [("/a", 1)]) "/a" :=
  c10_nonCluster_deterministic (mkLocal [("/a", 1)]) (mkLocal [("/a", 1)])
    "/a" "/a" rfl rfl

/-! ### Inversion lemmas for the redis operations -/

theorem redisExists_ok (s : RedisState) (k : String) (v : Nat)
    (s1 : RedisState) (h : redisExists s k = Except.ok (v, s1)) :
    s1.data = s.data ∧ v = (if hasKey s.data k then 1 else 0) := by
  obtain ⟨d, fs⟩ := s
  cases fs with
  | nil =>
    simp [redisExists, popFail] at h
    exact ⟨h.2.symm ▸ rfl, h.1.symm⟩
  | cons f rest =>
    cases f
    · simp [redisExists, popFail] at h
      exact ⟨h.2.symm ▸ rfl, h.1.symm⟩
    · simp [redisExists, popFail] at h

theorem redisGet_ok (s : RedisState) (k : String) (c : Option Nat)
    (s1 : RedisState) (h : redisGet s k = Except.ok (c, s1)) :
    s1.data = s.data ∧ c = lookupKey s.data k := by
  obtain ⟨d, fs⟩ := s
  cases fs with
  | nil =>
    simp [redisGet, popFail] at h
    exact ⟨h.2.symm ▸ rfl, h.1.symm⟩
  | cons f rest =>
    cases f
    · simp [redisGet, popFail] at h
      exact ⟨h.2.symm ▸ rfl, h.1.symm⟩
    · simp [redisGet, popFail] at h

theorem redisIncr_ok (s : RedisState) (k : String) (s1 : RedisState)
    (h : redisIncr s k = Except.ok s1) :
    s1.data = (if hasKey s.data k then incrKey s.data k
               else s.data ++ [(k, 1)]) := by
  obtain ⟨d, fs⟩ := s
  cases fs with
  | nil =>
    simp [redisIncr, popFail] at h
    rw [← h]
  | cons f rest =>
    cases f
    · simp [redisIncr, popFail] at h
      rw [← h]
    · simp [redisIncr, popFail] at h

theorem pathIsValid_ok (s : RedisState) (p : String) (valid : Bool)
    (s1 : RedisState) (h : pathIsValidForLimit s p = Except.ok (valid, s1)) :
    s1.data = s.data ∧ valid = hasKey s.data (redisKey p) := by
  unfold pathIsValidForLimit at h
  split at h
  · simp at h
  next v s2 hE =>
    obtain ⟨hd, hv⟩ := redisExists_ok _ _ _ _ hE
    simp only [Except.ok.injEq, Prod.mk.injEq] at h
    obtain ⟨h1, h2⟩ := h
    subst h2
    refine ⟨hd, ?_⟩
    subst hv h1
    by_cases hk : hasKey s.data (redisKey p) <;> simp [hk]

/-- C2 counterexample: with quotas `{'/a': 2}` but a shared store already
holding the namespaced key for the unconfigured path `/x`, cluster-mode
admission of `/x` passes the existence check and then compares the count
against `this.routeLimits['/x']` (undefined, so the JS `<` is false),
returning the quota-exceeded rejection rather than the unknown-route one:
the decision is NOT `REJECT_UNKNOWN_ROUTE`, refuting the claim for shared
mode under arbitrary store contents. -/
theorem c2_counterexample :
    decisionOf (limitRateCluster [("/a", 2)]
        ⟨[("routeCounts:/x", 0)], []⟩ "/x")
      = some (Decision.reject (quotaExceededResponse "/x")) ∧
    quotaExceededResponse "/x" ≠ unknownRouteResponse "/x" := by
  decide

/-- C2 (amended): in local mode, admission of a path absent from the
configured quotas returns the unknown-route rejection after any sequence
of prior calls; in shared mode the same holds whenever the namespaced key
for that path is absent from the store (as it is when the store has only
ever been seeded from the same quota table) and the store is reachable —
but not for arbitrary store contents. -/
theorem c2_unknown_route (q : List (String × Nat)) (ps : List String)
    (p : String) (hq : hasKey q p = false)
    (limits data : List (String × Nat))
    (hd : hasKey data (redisKey p) = false) :
    (limitRateNonCluster (runState (mkLocal q) ps) p).1
      = Decision.reject (unknownRouteResponse p) ∧
    limitRateCluster limits ⟨data, []⟩ p
      = Except.ok (Decision.reject (unknownRouteResponse p), ⟨data, []⟩) := by
  constructor
  · have h : hasKey (runState (mkLocal q) ps).routeCounts p = false := by
      rw [hasKey_runState, hasKey_mkLocal]
      exact hq
    rw [nonCluster_notConfigured _ p h]
  · simp [limitRateCluster, pathIsValidForLimit, redisExists, popFail, hd]

theorem c2_unknown_route_witness :
    (limitRateNonCluster (runState (mkLocal [("/a", 2)]) ["/a"]) "/b").1
      = Decision.reject (unknownRouteResponse "/b") ∧
    limitRateCluster [("/a", 2)] ⟨[("routeCounts:/a", 0)], []⟩ "/b"
      = Except.ok (Decision.reject (unknownRouteResponse "/b"),
          ⟨[("routeCounts:/a", 0)], []⟩) :=
  c2_unknown_route [("/a", 2)] ["/a"] "/b" (by decide)
    [("/a", 2)] [("routeCounts:/a", 0)] (by decide)

/-- C3: in shared mode, a store transport failure (a rejected promise)
during the existence check, the count read, or the increment propagates
out of the uncaught async `limitRateCluster` as an error outcome; an error
outcome is a different constructor from every `Except.ok`-wrapped
decision, so it is distinct from both rejection responses and is never an
ALLOW. -/
theorem c3_store_failure (limits data : List (String × Nat))
    (rest : List Bool) (p : String) :
    limitRateCluster limits ⟨data, true :: rest⟩ p = Except.error () ∧
    (hasKey data (redisKey p) = true →
      limitRateCluster limits ⟨data, false :: true :: rest⟩ p
        = Except.error ()) ∧
    (hasKey data (redisKey p) = true →
      ltNull (lookupKey data (redisKey p)) (lookupKey limits p) = true →
      limitRateCluster limits ⟨data, false :: false :: true :: rest⟩ p
        = Except.error ()) ∧
    (∀ d s1, (Except.error () : Except Unit (Decision × RedisState))
        ≠ Except.ok (d, s1)) := by
  refine ⟨?_, ?_, ?_, ?_⟩
  · simp [limitRateCluster, pathIsValidForLimit, redisExists, popFail]
  · intro h
    simp [limitRateCluster, pathIsValidForLimit, redisExists, popFail, h,
      getPathCountCluster, redisGet]
  · intro h hlt
    simp [limitRateCluster, pathIsValidForLimit, redisExists, popFail, h,
      getPathCountCluster, redisGet, hlt, incrementPathCountCluster,
      redisIncr]
  · intro d s1
    simp

theorem c3_store_failure_witness :
    limitRateCluster [("/a", 2)] ⟨[("routeCounts:/a", 0)], [true]⟩ "/a"
      = Except.error () ∧
    limitRateCluster [("/a", 2)]
        ⟨[("routeCounts:/a", 0)], [false, false, true]⟩ "/a"
      = Except.error () :=
  ⟨(c3_store_failure [("/a", 2)] [("routeCounts:/a", 0)] [] "/a").1,
   (c3_store_failure [("/a", 2)] [("routeCounts:/a", 0)] [] "/a").2.2.1
     (by decide) (by decide)⟩

/-! ### Case analysis of one local-mode invocation -/

theorem ltUndef_true (a b : Option Nat) (h : ltUndef a b = true) :
    ∃ c l, a = some c ∧ b = some l ∧ c < l := by
  cases a with
  | none => simp [ltUndef] at h
  | some c =>
    cases b with
    | none => simp [ltUndef] at h
    | some l =>
      simp [ltUndef] at h
      exact ⟨c, l, rfl, rfl, h⟩

theorem nonCluster_cases (s : LocalState) (p : String) :
    (hasKey s.routeCounts p = false ∧
      limitRateNonCluster s p
        = (Decision.reject (unknownRouteResponse p), s)) ∨
    (∃ c N, lookupKey s.routeCounts p = some c ∧
      lookupKey s.routeLimits p = some N ∧ c < N ∧
      limitRateNonCluster s p
        = (Decision.allow,
           { s with routeCounts := incrKey s.routeCounts p })) ∨
    (∃ c, lookupKey s.routeCounts p = some c ∧
      ltUndef (some c) (lookupKey s.routeLimits p) = false ∧
      limitRateNonCluster s p
        = (Decision.reject (quotaExceededResponse p), s)) := by
  by_cases hk : hasKey s.routeCounts p = true
  · obtain ⟨c, hc⟩ : ∃ c, lookupKey s.routeCounts p = some c := by
      cases hl : lookupKey s.routeCounts p with
      | none => rw [hasKey, hl] at hk; simp at hk
      | some c => exact ⟨c, rfl⟩
    by_cases hlt : ltUndef (lookupKey s.routeCounts p)
        (lookupKey s.routeLimits p) = true
    · obtain ⟨c2, N, hc2, hN, hcn⟩ := ltUndef_true _ _ hlt
      rw [hc] at hc2
      injection hc2 with hcc
      subst hcc
      exact Or.inr (Or.inl ⟨c, N, hc, hN, hcn, nonCluster_allow s p c N hc hN hcn⟩)
    · simp only [Bool.not_eq_true] at hlt
      rw [hc] at hlt
      exact Or.inr (Or.inr ⟨c, hc, hlt, nonCluster_quotaExceeded s p c hc hlt⟩)
  · simp only [Bool.not_eq_true] at hk
    exact Or.inl ⟨hk, nonCluster_notConfigured s p hk⟩

/-- C5: in either mode, one admission step changes the route's counter by
exactly +1 when the decision is ALLOW and leaves the state untouched when
the decision is a rejection; in particular the counter never decreases
between two successive calls.  Local mode: stated on
`limitRateNonCluster`.  Shared mode: stated on the data reached by an
`Except.ok` outcome of `limitRateCluster` (a store failure yields no
decision and is outside this claim). -/
theorem c5_counter_step (s : LocalState) (p : String)
    (limits : List (String × Nat)) (st : RedisState) :
    ((limitRateNonCluster s p).1 = Decision.allow →
      getCount (limitRateNonCluster s p).2 p = getCount s p + 1) ∧
    ((limitRateNonCluster s p).1 ≠ Decision.allow →
      (limitRateNonCluster s p).2 = s) ∧
    getCount s p ≤ getCount (limitRateNonCluster s p).2 p ∧
    (∀ st1, limitRateCluster limits st p = Except.ok (Decision.allow, st1) →
      lookupKey st1.data (redisKey p)
        = some ((lookupKey st.data (redisKey p)).getD 0 + 1)) ∧
    (∀ r st1, limitRateCluster limits st p
        = Except.ok (Decision.reject r, st1) → st1.data = st.data) := by
  have cl := nonCluster_cases s p
  refine ⟨?_, ?_, ?_, ?_, ?_⟩
  · intro hd
    rcases cl with ⟨hk, heq⟩ | ⟨c, N, hc, hN, hcn, heq⟩ | ⟨c, hc, hlt, heq⟩
    · rw [heq] at hd; simp at hd
    · rw [heq]
      simp only [getCount]
      rw [lookupKey_incrKey_self]
      simp [hc]
    · rw [heq] at hd; simp at hd
  · intro hd
    rcases cl with ⟨hk, heq⟩ | ⟨c, N, hc, hN, hcn, heq⟩ | ⟨c, hc, hlt, heq⟩
    · rw [heq]
    · rw [heq] at hd; simp at hd
    · rw [heq]
  · rcases cl with ⟨hk, heq⟩ | ⟨c, N, hc, hN, hcn, heq⟩ | ⟨c, hc, hlt, heq⟩
    · rw [heq]
    · rw [heq]
      simp only [getCount]
      rw [lookupKey_incrKey_self]
      simp [hc]
    · rw [heq]
  · intro st1 h
    unfold limitRateCluster at h
    split at h
    · simp at h
    next valid s1 hV =>
      obtain ⟨hs1, hvalid⟩ := pathIsValid_ok _ _ _ _ hV
      split at h
      · simp at h
      next hvb =>
        have hvb2 : valid = true := by
          revert hvb
          cases valid <;> simp
        split at h
        · simp at h
        next count s2 hG =>
          obtain ⟨hs2, hcount⟩ := redisGet_ok _ _ _ _ hG
          split at h
          · split at h
            · simp at h
            next s3 hI =>
              have hd3 := redisIncr_ok _ _ _ hI
              simp only [Except.ok.injEq, Prod.mk.injEq, true_and] at h
              subst h
              have hkeySt : hasKey st.data (redisKey p) = true := by
                rw [← hvalid]
                exact hvb2
              have hkey : hasKey s2.data (redisKey p) = true := by
                rw [hs2, hs1]
                exact hkeySt
              obtain ⟨c, hc⟩ : ∃ c, lookupKey st.data (redisKey p) = some c := by
                rw [hasKey] at hkeySt
                exact Option.isSome_iff_exists.mp hkeySt
              rw [hd3, if_pos hkey, lookupKey_incrKey_self, hs2, hs1]
              simp [hc]
          · simp at h
  · intro r st1 h
    unfold limitRateCluster at h
    split at h
    · simp at h
    next valid s1 hV =>
      obtain ⟨hs1, hvalid⟩ := pathIsValid_ok _ _ _ _ hV
      split at h
      · simp only [Except.ok.injEq, Prod.mk.injEq] at h
        obtain ⟨_, hst⟩ := h
        subst hst
        exact hs1
      · split at h
        · simp at h
        next count s2 hG =>
          obtain ⟨hs2, hcount⟩ := redisGet_ok _ _ _ _ hG
          split at h
          · split at h
            · simp at h
            · simp at h
          · simp only [Except.ok.injEq, Prod.mk.injEq] at h
            obtain ⟨_, hst⟩ := h
            subst hst
            rw [hs2, hs1]

theorem c5_counter_step_witness :
    getCount (limitRateNonCluster (mkLocal [("/a", 2)]) "/a").2 "/a"
      = getCount (mkLocal [("/a", 2)]) "/a" + 1 ∧
    lookupKey (⟨[("routeCounts:/a", 4)], []⟩ : RedisState).data (redisKey "/a")
      = some ((lookupKey (⟨[("routeCounts:/a", 3)], []⟩ : RedisState).data
          (redisKey "/a")).getD 0 + 1) :=
  ⟨(c5_counter_step (mkLocal [("/a", 2)]) "/a" [("/a", 9)]
      ⟨[("routeCounts:/a", 3)], []⟩).1 (by decide),
   (c5_counter_step (mkLocal [("/a", 2)]) "/a" [("/a", 9)]
      ⟨[("routeCounts:/a", 3)], []⟩).2.2.2.1 ⟨[("routeCounts:/a", 4)], []⟩
     (by rfl)⟩

/-! ### Seeding (setnx) lemmas -/

theorem seedStore_cons (kv : String × Nat) (rest d : List (String × Nat)) :
    seedStore (kv :: rest) d
      = seedStore rest (setnxData d (redisKey kv.1) 0) := rfl

theorem lookupKey_append (m1 m2 : List (String × Nat)) (k : String) :
    lookupKey (m1 ++ m2) k
      = match lookupKey m1 k with
        | some v => some v
        | none => lookupKey m2 k := by
  induction m1 with
  | nil => simp [lookupKey]
  | cons kv rest ih =>
    obtain ⟨k1, v1⟩ := kv
    by_cases h : k1 = k <;> simp [lookupKey, h, ih]

theorem lookupKey_setnx_present (m : List (String × Nat)) (k' k : String)
    (v : Nat) (h : hasKey m k = true) :
    lookupKey (setnxData m k' v) k = lookupKey m k := by
  unfold setnxData
  split
  · rfl
  · rw [lookupKey_append]
    rw [hasKey] at h
    obtain ⟨c, hc⟩ := Option.isSome_iff_exists.mp h
    simp [hc]

theorem hasKey_setnx (m : List (String × Nat)) (k' k : String) (v : Nat)
    (h : hasKey m k = true) : hasKey (setnxData m k' v) k = true := by
  rw [hasKey, lookupKey_setnx_present m k' k v h]
  exact h

theorem hasKey_setnx_self (m : List (String × Nat)) (k : String) (v : Nat) :
    hasKey (setnxData m k v) k = true := by
  unfold setnxData
  split
  next h => exact h
  next h =>
    simp only [Bool.not_eq_true] at h
    have hnone : lookupKey m k = none := by
      cases hl : lookupKey m k
      · rfl
      · rw [hasKey, hl] at h
        simp at h
    rw [hasKey, lookupKey_append, hnone]
    simp [lookupKey]

theorem setnx_noop (m : List (String × Nat)) (k : String) (v : Nat)
    (h : hasKey m k = true) : setnxData m k v = m := by
  simp [setnxData, h]

theorem seedStore_present (limits d : List (String × Nat)) (k : String)
    (h : hasKey d k = true) :
    lookupKey (seedStore limits d) k = lookupKey d k := by
  induction limits generalizing d with
  | nil => rfl
  | cons kv rest ih =>
    rw [seedStore_cons, ih _ (hasKey_setnx _ _ _ _ h),
        lookupKey_setnx_present _ _ _ _ h]

theorem hasKey_seedStore_present (limits d : List (String × Nat)) (k : String)
    (h : hasKey d k = true) : hasKey (seedStore limits d) k = true := by
  rw [hasKey, seedStore_present limits d k h]
  exact h

theorem hasKey_seedStore_mem (limits d : List (String × Nat)) :
    ∀ kv ∈ limits, hasKey (seedStore limits d) (redisKey kv.1) = true := by
  induction limits generalizing d with
  | nil =>
    intro kv h
    simp at h
  | cons kv0 rest ih =>
    intro kv hm
    rw [seedStore_cons]
    rcases List.mem_cons.mp hm with h | h
    · subst h
      exact hasKey_seedStore_present rest _ _ (hasKey_setnx_self _ _ _)
    · exact ih _ kv h

theorem seedStore_noop (limits e : List (String × Nat))
    (h : ∀ kv ∈ limits, hasKey e (redisKey kv.1) = true) :
    seedStore limits e = e := by
  induction limits generalizing e with
  | nil => rfl
  | cons kv rest ih =>
    rw [seedStore_cons, setnx_noop _ _ _ (h kv (by simp))]
    exact ih e (fun kv2 h2 => h kv2 (by simp [h2]))

theorem lookupKey_setnx_cases (m : List (String × Nat)) (k' k : String)
    (v : Nat) :
    lookupKey (setnxData m k' v) k = lookupKey m k ∨
    (lookupKey m k = none ∧ lookupKey (setnxData m k' v) k = some v) := by
  unfold setnxData
  split
  · exact Or.inl rfl
  · cases hl : lookupKey m k with
    | some c =>
      refine Or.inl ?_
      rw [lookupKey_append, hl]
    | none =>
      by_cases hk : k' = k
      · subst hk
        refine Or.inr ⟨rfl, ?_⟩
        rw [lookupKey_append, hl]
        simp [lookupKey]
      · refine Or.inl ?_
        rw [lookupKey_append, hl]
        simp [lookupKey, hk]

theorem lookupKey_seedStore_cases (limits d : List (String × Nat))
    (k : String) :
    lookupKey (seedStore limits d) k = lookupKey d k ∨
    (lookupKey d k = none ∧ lookupKey (seedStore limits d) k = some 0) := by
  induction limits generalizing d with
  | nil => exact Or.inl rfl
  | cons kv rest ih =>
    rw [seedStore_cons]
    rcases lookupKey_setnx_cases d (redisKey kv.1) k 0 with h | ⟨h0, hs⟩
    · rcases ih (setnxData d (redisKey kv.1) 0) with h2 | ⟨h2a, h2b⟩
      · exact Or.inl (h2.trans h)
      · exact Or.inr ⟨h.symm.trans h2a, h2b⟩
    · rcases ih (setnxData d (redisKey kv.1) 0) with h2 | ⟨h2a, h2b⟩
      · exact Or.inr ⟨h0, h2.trans hs⟩
      · rw [hs] at h2a
        exact absurd h2a (by simp)

/-- C6: cluster-mode seeding (`setnx('routeCounts:' + key, 0)` for every
configured route) never overwrites an existing store value, running
construction twice against the same pre-populated store leaves every
existing counter unchanged (seeding twice equals seeding once), and any
key the seeding changes was absent before and is created at 0. -/
theorem c6_seeding_idempotent (limits data : List (String × Nat)) :
    (∀ k, hasKey data k = true →
      lookupKey (seedStore limits data) k = lookupKey data k) ∧
    (∀ k, hasKey data k = true →
      lookupKey (seedStore limits (seedStore limits data)) k
        = lookupKey data k) ∧
    seedStore limits (seedStore limits data) = seedStore limits data ∧
    (∀ k, lookupKey (seedStore limits data) k ≠ lookupKey data k →
      hasKey data k = false ∧ lookupKey (seedStore limits data) k = some 0) := by
  have hid : seedStore limits (seedStore limits data)
      = seedStore limits data :=
    seedStore_noop limits _ (hasKey_seedStore_mem limits data)
  refine ⟨?_, ?_, hid, ?_⟩
  · intro k h
    exact seedStore_present limits data k h
  · intro k h
    rw [hid]
    exact seedStore_present limits data k h
  · intro k hne
    rcases lookupKey_seedStore_cases limits data k with h | ⟨h0, hs⟩
    · exact absurd h hne
    · refine ⟨?_, hs⟩
      rw [hasKey, h0]
      rfl

theorem c6_seeding_idempotent_witness :
    lookupKey (seedStore [("/a", 2)] (seedStore [("/a", 2)]
        [("routeCounts:/a", 7)])) "routeCounts:/a"
      = lookupKey [("routeCounts:/a", 7)] "routeCounts:/a" :=
  (c6_seeding_idempotent [("/a", 2)] [("routeCounts:/a", 7)]).2.1
    "routeCounts:/a" (by decide)

/-- C9: every rejection produced by either mode is one of the two fixed
response shapes; the two shapes carry distinct machine-checkable
`statusCode` fields (400 for unknown route, 429 for quota exceeded), and
each human-readable `message` contains the offending route path. -/
theorem c9_rejection_shapes :
    (∀ s p r s1, limitRateNonCluster s p = (Decision.reject r, s1) →
      r = unknownRouteResponse p ∨ r = quotaExceededResponse p) ∧
    (∀ limits st p r st1,
      limitRateCluster limits st p = Except.ok (Decision.reject r, st1) →
      r = unknownRouteResponse p ∨ r = quotaExceededResponse p) ∧
    (∀ p, (unknownRouteResponse p).statusCode = 400 ∧
      (quotaExceededResponse p).statusCode = 429 ∧
      (unknownRouteResponse p).statusCode
        ≠ (quotaExceededResponse p).statusCode) ∧
    (∀ p, ∃ pre post, (unknownRouteResponse p).message = pre ++ p ++ post) ∧
    (∀ p, ∃ pre post,
      (quotaExceededResponse p).message = pre ++ p ++ post) := by
  refine ⟨?_, ?_, ?_, ?_, ?_⟩
  · intro s p r s1 h
    rcases nonCluster_cases s p with ⟨_, heq⟩ | ⟨c, N, _, _, _, heq⟩ |
      ⟨c, _, _, heq⟩
    · rw [heq] at h
      simp only [Prod.mk.injEq, Decision.reject.injEq] at h
      exact Or.inl h.1.symm
    · rw [heq] at h
      simp at h
    · rw [heq] at h
      simp only [Prod.mk.injEq, Decision.reject.injEq] at h
      exact Or.inr h.1.symm
  · intro limits st p r st1 h
    unfold limitRateCluster at h
    split at h
    · simp at h
    next valid s1 hV =>
      split at h
      · simp only [Except.ok.injEq, Prod.mk.injEq, Decision.reject.injEq] at h
        exact Or.inl h.1.symm
      · split at h
        · simp at h
        next count s2 hG =>
          split at h
          · split at h
            · simp at h
            · simp at h
          · simp only [Except.ok.injEq, Prod.mk.injEq,
              Decision.reject.injEq] at h
            exact Or.inr h.1.symm
  · intro p
    exact ⟨rfl, rfl, by simp [unknownRouteResponse, quotaExceededResponse]⟩
  · intro p
    exact ⟨"Route path ", " not configured.", rfl⟩
  · intro p
    exact ⟨"Route path ", " has reached its request limit.", rfl⟩

theorem c9_rejection_shapes_witness :
    unknownRouteResponse "/b" = unknownRouteResponse "/b" ∨
    unknownRouteResponse "/b" = quotaExceededResponse "/b" :=
  c9_rejection_shapes.1 (mkLocal [("/a", 2)]) "/b"
    (unknownRouteResponse "/b") (mkLocal [("/a", 2)]) (by rfl)
